import Mathlib

/-!
Verification development for the unrpa archive-index pipeline.

The source is translated shallowly:

* Deserialized scalar values (Python ints and byte strings) become `PyVal`.
* An index Part is the list of its tuple fields, so that 2-field, 3-field
  and malformed wider tuples are all representable, exactly as the source
  dispatches on `len(part)`.
* An Index is an association list in insertion order (Python dicts
  preserve insertion order).
* Fallible Python code (tuple unpacking, `^` on a non-int, `next` on an
  empty iterator) returns `Except`.
* Offsets, lengths and keys are unsigned integers (the formats store
  unsigned 64-bit fields), modelled as `Nat`; Python `^` is `Nat.xor`.
-/

namespace UnRPA

/-- A deserialized scalar field as produced by the trusted deserializer:
an integer or a byte string (bytes as their numeric values). -/
inductive PyVal where
  | int : Nat → PyVal
  | bytes : List Nat → PyVal
deriving DecidableEq

/-- An index Part: the list of fields of the deserialized tuple. A
well-formed simple part is `[int offset, int length]`, a complex part is
`[int offset, int length, bytes p]`; other widths are representable
because the source dispatches on the runtime tuple length. -/
abbrev IndexPart := List PyVal

/-- An index entry: the ordered sequence of its Parts. -/
abbrev IndexEntry := List IndexPart

/-- The deserialized index: an association list from path to entry, kept
in insertion order like a Python dict. -/
abbrev Index := List (String × IndexEntry)

/-- Python runtime failures that the translated code can raise: tuple
unpacking of the wrong width (ValueError), `^` applied to a non-int
(TypeError), `next` on an exhausted iterator (StopIteration). -/
inductive PyErr where
  | valueError : PyErr
  | typeError : PyErr
  | stopIteration : PyErr
deriving DecidableEq

/-- One step of `UnRPA.normalise_entry`: a 2-field part becomes
`(*part, b"")`; any other part is returned unchanged (the source wraps
the else-branch in `typing.cast`, which is a runtime no-op). -/
def normalise_part (part : IndexPart) : IndexPart :=
  if part.length = 2 then part ++ [PyVal.bytes []] else part

/-- `UnRPA.normalise_entry`: the list comprehension over the parts of an
entry. -/
def normalise_entry (entry : IndexEntry) : IndexEntry :=
  entry.map normalise_part

/-- `UnRPA.normalise_index`: normalise every entry of the index. -/
def normalise_index (index : Index) : Index :=
  index.map (fun pe => (pe.1, normalise_entry pe.2))

/-- A Python-style list comprehension over a fallible element transform:
elements are processed left to right and the first raised error aborts
the whole comprehension. -/
def map_except {α β : Type} (f : α → Except PyErr β) : List α → Except PyErr (List β)
  | [] => Except.ok []
  | x :: xs =>
    match f x with
    | Except.error e => Except.error e
    | Except.ok y => (map_except f xs).map (fun ys => y :: ys)

/-- One step of `UnRPA.deobfuscate_entry`: unpack
`offset, length, start = part` (ValueError unless the part has exactly 3
fields), then build `(offset ^ key, length ^ key, start)` (TypeError
unless offset and length are ints). The third field is stored back
untouched. -/
def deobfuscate_part (key : Nat) (part : IndexPart) : Except PyErr IndexPart :=
  match part with
  | [a, b, s] =>
    match a, b with
    | PyVal.int o, PyVal.int l =>
        Except.ok [PyVal.int (o ^^^ key), PyVal.int (l ^^^ key), s]
    | _, _ => Except.error PyErr.typeError
  | _ => Except.error PyErr.valueError

/-- `UnRPA.deobfuscate_entry`: the comprehension
`[(offset ^ key, length ^ key, start) for offset, length, start in
UnRPA.normalise_entry(entry)]`. -/
def deobfuscate_entry (key : Nat) (entry : IndexEntry) : Except PyErr IndexEntry :=
  map_except (deobfuscate_part key) (normalise_entry entry)

/-- `UnRPA.deobfuscate_index`: deobfuscate every entry of the index. -/
def deobfuscate_index (key : Nat) (index : Index) : Except PyErr Index :=
  map_except (fun pe => (deobfuscate_entry key pe.2).map (fun e => (pe.1, e))) index

/-- The key dispatch of `UnRPA.get_index` after deserialization: with a
key, `UnRPA.deobfuscate_index`; with `key is None`,
`UnRPA.normalise_index` and the normalized entries pass through. -/
def resolve_entries (key : Option Nat) (index : Index) : Except PyErr Index :=
  match key with
  | some k => deobfuscate_index k index
  | none => Except.ok (normalise_index index)

/-- The claim wording for deobfuscation of one normalized part: XOR the
offset and length fields against the key and keep the third field
untouched; written from the specification text to compare with
`deobfuscate_part`. -/
def claim_deobfuscate_part (key : Nat) : IndexPart → IndexPart
  | [PyVal.int o, PyVal.int l, s] => [PyVal.int (o ^^^ key), PyVal.int (l ^^^ key), s]
  | part => part

/-- A normalized part of the canonical complex shape
`(int offset, int length, third)`. -/
def complex_shape (part : IndexPart) : Prop :=
  ∃ o l s, part = [PyVal.int o, PyVal.int l, s]

/-- The fixed 32-byte magic sequence `RPA91.magic_bytes` of the RPA-9.1
handler. -/
def magic_bytes : List Nat :=
  [0xF6, 0x02, 0x3F, 0x76, 0x4D, 0x0B, 0x80, 0x1B,
   0x29, 0x10, 0xDF, 0xDD, 0x74, 0x85, 0xDE, 0xA6,
   0xDB, 0x7D, 0xC8, 0x19, 0xBA, 0xE3, 0xD0, 0x63,
   0x2F, 0x50, 0xE7, 0x55, 0xB4, 0x67, 0x0B, 0xFB]

/-- The transform `RPA91.postprocess` applies to one segment returned by
`source.read1`. Both source paths compute this function of the segment
alone: the itertools path builds a fresh `itertools.cycle(magic_bytes)`
inside the per-segment loop, and the numpy path indexes the magic table
with `arange(len(segment)) & 31`; either way byte `i` of the segment is
XORed with `magic_bytes[i mod 32]`, with `i` counted from the start of
the segment. -/
def xor_segment (segment : List Nat) : List Nat :=
  List.zipWith (fun i b => b ^^^ magic_bytes.getD (i % 32) 0)
    (List.range segment.length) segment

/-- `RPA91.postprocess` over a whole file: `iter(source.read1, b"")`
yields the chunking of the file bytes chosen by the view, and the sink
receives the concatenation of the per-segment transforms. -/
def rpa91_postprocess (segments : List (List Nat)) : List Nat :=
  (segments.map xor_segment).flatten

/-- Cipher as the claim words it: XOR the byte at logical position `i`
of the whole file against `magic_bytes[i mod 32]`, the position counter
running across chunk boundaries; written from the specification text to
compare with `rpa91_postprocess`. -/
def claim_running_xor (data : List Nat) : List Nat :=
  List.zipWith (fun i b => b ^^^ magic_bytes.getD (i % 32) 0)
    (List.range data.length) data

/-- A registered format handler, reduced to what detection needs: its
name and its `detect(extension, header_line)` predicate. The concrete
handler classes live outside the given sources, so the registry is an
abstract collection of such handlers. -/
structure Version where
  name : String
  detect : String → List Nat → Bool

/-- Failures of `UnRPA.detect_version`: `AmbiguousArchiveError` carrying
the set of conflicting candidates, `UnknownArchiveError` carrying the
header bytes that were read. -/
inductive DetectErr where
  | ambiguousArchive : List Version → DetectErr
  | unknownArchive : List Nat → DetectErr

/-- `UnRPA.detect_version`: build the set of registered versions whose
`detect(ext, header)` holds; more than one match raises
`AmbiguousArchiveError(detected)`, `next(iter(detected))` returns the
sole match, and on an empty set the `StopIteration` is turned into
`UnknownArchiveError(header)`. The Python set is modelled as the
filtered list of candidates. -/
def detect_version (versions : List Version) (ext : String) (header : List Nat) :
    Except DetectErr Version :=
  if 1 < (versions.filter (fun v => v.detect ext header)).length then
    Except.error (DetectErr.ambiguousArchive (versions.filter (fun v => v.detect ext header)))
  else
    match versions.filter (fun v => v.detect ext header) with
    | [] => Except.error (DetectErr.unknownArchive header)
    | v :: _ => Except.ok v

/-- Modelled from the spec: `unrpa.view.ArchiveView` is not among the
given sources. Per the spec it owns `(start_offset, length,
inline_prefix)` plus a borrowed stream reference; the borrowed stream is
left out and the three stored fields are kept exactly as the
construction site `ArchiveView(archive, offset, length, start)` passes
them, with no conversion or validation. -/
structure ArchiveView where
  offset : PyVal
  length : PyVal
  start : PyVal
deriving DecidableEq

/-- `UnRPA.extract_file` without its logging: `offset, length, start =
next(iter(data))` (StopIteration on an empty entry, ValueError unless
the first part has exactly 3 fields) and `ArchiveView(archive, offset,
length, start)` built from that first part alone. -/
def extract_file (data : IndexEntry) : Except PyErr ArchiveView :=
  match data with
  | [] => Except.error PyErr.stopIteration
  | part :: _ =>
    match part with
    | [o, l, s] => Except.ok (ArchiveView.mk o l s)
    | _ => Except.error PyErr.valueError

/-- Modelled from the spec: `unrpa.errors.ErrorExtractingFile` is not
among the given sources. The raise site wraps the failure as
`ErrorExtractingFile(traceback.format_exc()) from error`; the wrapper is
modelled as carrying the path of the entry being processed when the
failure occurred together with the underlying cause. -/
inductive RunErr where
  | errorExtractingFile : String → PyErr → RunErr
deriving DecidableEq

/-- The per-entry loop body of `UnRPA.extract_files` (directory
creation, `extract_file`, opening the sink, `version.postprocess`) is
abstracted as one fallible `process` step yielding the bytes written for
that entry. The loop walks the index in order; a failing entry either
aborts the run as `ErrorExtractingFile` (when `continue_on_error` is
false) or is logged and skipped, the loop moving on to the next entry.
The result is the list of written files and the list of logged
failures. -/
def extract_files (continue_on_error : Bool)
    (process : String → IndexEntry → Except PyErr (List Nat)) :
    Index → Except RunErr (List (String × List Nat) × List (String × PyErr))
  | [] => Except.ok ([], [])
  | (path, entry) :: rest =>
    match process path entry with
    | Except.ok out =>
      (extract_files continue_on_error process rest).map
        (fun r => ((path, out) :: r.1, r.2))
    | Except.error c =>
      if continue_on_error then
        (extract_files continue_on_error process rest).map
          (fun r => (r.1, (path, c) :: r.2))
      else Except.error (RunErr.errorExtractingFile path c)

/-- The entries of the index whose processing succeeds, with their
written bytes, in index order. -/
def successful_entries (process : String → IndexEntry → Except PyErr (List Nat))
    (index : Index) : List (String × List Nat) :=
  index.filterMap (fun pe =>
    match process pe.1 pe.2 with
    | Except.ok out => some (pe.1, out)
    | Except.error _ => none)

/-- The entries of the index whose processing fails, with their causes,
in index order. -/
def failed_entries (process : String → IndexEntry → Except PyErr (List Nat))
    (index : Index) : List (String × PyErr) :=
  index.filterMap (fun pe =>
    match process pe.1 pe.2 with
    | Except.ok _ => none
    | Except.error c => some (pe.1, c))

/-- `UnRPA.list_files` after the index is resolved: take the keys of the
index mapping and sort them; the entries (and hence the payload bytes
they point to) are never consulted. -/
def list_files (index : Index) : List String :=
  (index.map Prod.fst).mergeSort (fun a b => decide (a ≤ b))

/-! ## Helper lemmas -/

theorem map_ok_eq {ε α β : Type} (f : α → β) (x : α) :
    (Except.ok x : Except ε α).map f = Except.ok (f x) := rfl

theorem map_error_eq {ε α β : Type} (f : α → β) (e : ε) :
    (Except.error e : Except ε α).map f = Except.error e := rfl

theorem normalise_part_two {part : IndexPart} (h : part.length = 2) :
    normalise_part part = part ++ [PyVal.bytes []] := by
  simp [normalise_part, h]

theorem normalise_part_other {part : IndexPart} (h : part.length ≠ 2) :
    normalise_part part = part := by
  simp [normalise_part, h]

theorem map_except_deobfuscate {k : Nat} :
    ∀ {L : IndexEntry}, (∀ p ∈ L, complex_shape p) →
      map_except (deobfuscate_part k) L
        = Except.ok (L.map (claim_deobfuscate_part k))
  | [], _ => rfl
  | p :: L, h => by
    obtain ⟨o, l, s, rfl⟩ := h p (List.mem_cons_self p L)
    have ih := map_except_deobfuscate (k := k)
      (fun q hq => h q (List.mem_cons_of_mem _ hq))
    simp [map_except, deobfuscate_part, claim_deobfuscate_part, ih, map_ok_eq]

theorem map_except_error {α β : Type} (f : α → Except PyErr β) :
    ∀ {l : List α} {x : α}, x ∈ l → (∃ e, f x = Except.error e) →
      ∃ e, map_except f l = Except.error e
  | y :: ys, x, hx, he => by
    cases hfy : f y with
    | error e => exact ⟨e, by simp [map_except, hfy]⟩
    | ok b =>
      rcases List.mem_cons.mp hx with rfl | hmem
      · obtain ⟨e, he2⟩ := he
        rw [hfy] at he2
        exact absurd he2 (by simp)
      · obtain ⟨e, htail⟩ := map_except_error f hmem he
        exact ⟨e, by simp [map_except, hfy, htail, map_error_eq]⟩

theorem deobfuscate_part_wrong_width {k : Nat} {part : IndexPart}
    (h : part.length ≠ 3) :
    deobfuscate_part k part = Except.error PyErr.valueError := by
  cases part with
  | nil => rfl
  | cons a t =>
    cases t with
    | nil => rfl
    | cons b t2 =>
      cases t2 with
      | nil => rfl
      | cons c t3 =>
        cases t3 with
        | nil => exact absurd rfl h
        | cons d t4 => rfl

theorem deobfuscate_index_ok {k : Nat} :
    ∀ {index : Index},
      (∀ pe ∈ index, ∀ p ∈ normalise_entry pe.2, complex_shape p) →
      deobfuscate_index k index
        = Except.ok (index.map (fun pe =>
            (pe.1, (normalise_entry pe.2).map (claim_deobfuscate_part k))))
  | [], _ => rfl
  | pe :: rest, h => by
    have h1 : deobfuscate_entry k pe.2
        = Except.ok ((normalise_entry pe.2).map (claim_deobfuscate_part k)) :=
      map_except_deobfuscate (h pe (List.mem_cons_self pe rest))
    have ih := deobfuscate_index_ok (k := k)
      (fun q hq => h q (List.mem_cons_of_mem _ hq))
    simp only [deobfuscate_index] at ih ⊢
    simp [map_except, h1, ih, map_ok_eq]

theorem extract_files_abort (process : String → IndexEntry → Except PyErr (List Nat)) :
    ∀ (pre : Index) (path : String) (entry : IndexEntry) (c : PyErr) (rest : Index),
      (∀ pe ∈ pre, (process pe.1 pe.2).isOk = true) →
      process path entry = Except.error c →
      extract_files false process (pre ++ (path, entry) :: rest)
        = Except.error (RunErr.errorExtractingFile path c)
  | [], path, entry, c, rest, _, hc => by
    simp [extract_files, hc]
  | (p0, e0) :: pres, path, entry, c, rest, h, hc => by
    have hok := h (p0, e0) (List.mem_cons_self _ _)
    cases hpe : process p0 e0 with
    | error e =>
      rw [hpe] at hok
      simp [Except.isOk, Except.toBool] at hok
    | ok out =>
      have ih := extract_files_abort process pres path entry c rest
        (fun q hq => h q (List.mem_cons_of_mem _ hq)) hc
      simp [List.cons_append, extract_files, hpe, ih, map_error_eq]

theorem extract_files_logged (process : String → IndexEntry → Except PyErr (List Nat)) :
    ∀ index : Index,
      extract_files true process index
        = Except.ok (successful_entries process index, failed_entries process index)
  | [] => rfl
  | (p0, e0) :: rest => by
    have ih := extract_files_logged process rest
    cases hpe : process p0 e0 with
    | ok out =>
      simp [extract_files, successful_entries, failed_entries, hpe, ih,
        map_ok_eq, List.filterMap_cons]
    | error c =>
      simp [extract_files, successful_entries, failed_entries, hpe, ih,
        map_ok_eq, List.filterMap_cons]

theorem list_files_sorted (index : Index) :
    List.Sorted (fun a b : String => a ≤ b) (list_files index) := by
  have h := @List.sorted_mergeSort String (fun a b => decide (a ≤ b))
    (fun a b c h1 h2 =>
      decide_eq_true (le_trans (of_decide_eq_true h1) (of_decide_eq_true h2)))
    (fun a b => by simpa using le_total a b)
    (index.map Prod.fst)
  exact h.imp (fun hab => of_decide_eq_true hab)

/-- A header-tagged detection fixture in the style of the registered
handlers: accept when the header line starts with the tag bytes of
RPA-3.0 (`52 50 41 2D 33 2E 30`). -/
def rpa3_fixture : Version :=
  Version.mk "RPA-3.0" (fun _ header => header.take 7 == [0x52, 0x50, 0x41, 0x2D, 0x33, 0x2E, 0x30])

/-- A second detection fixture with a disjoint header tag
(`5A 69 58` for ZiX). -/
def zix_fixture : Version :=
  Version.mk "ZiX-12B" (fun _ header => header.take 3 == [0x5A, 0x69, 0x58])

/-- A per-entry extraction step for exercising the driver: the entry at
path "bad" fails, every other entry writes one byte. -/
def broken_process (path : String) (_ : IndexEntry) : Except PyErr (List Nat) :=
  if path = "bad" then Except.error PyErr.valueError else Except.ok [7]

/-! ## Claim theorems -/

/-- C1: the claim states that the RPA-9.1 postprocess XORs the byte at
logical position i of the whole file with `magic_bytes[i mod 32]`, the
running counter persisting across chunk boundaries, regardless of the
chunk split. The code instead restarts the magic cycle at the start of
every chunk (the itertools path rebuilds `itertools.cycle` inside the
per-segment loop; the numpy path indexes with `arange(len(segment)) &
31`). On the file bytes `[0x00, 0x00]` read as two one-byte chunks the
code emits `[0xF6, 0xF6]` while the claimed transform emits
`[0xF6, 0x02]`; the output depends on the chunking. -/
theorem rpa91_postprocess_chunk_reset :
    rpa91_postprocess [[0x00], [0x00]] = [0xF6, 0xF6] ∧
    claim_running_xor [0x00, 0x00] = [0xF6, 0x02] ∧
    ([[0x00], [0x00]] : List (List Nat)).flatten = [0x00, 0x00] ∧
    rpa91_postprocess [[0x00], [0x00]] ≠ claim_running_xor [0x00, 0x00] :=
  ⟨by decide, by decide, by decide, by decide⟩

/-- C2 counterexample: with no obfuscation key, an entry holding a
4-field Part resolves successfully and the malformed Part is returned
in the Index unchanged — resolution does not fail with a decode error
(the `typing.cast` in `UnRPA.normalise_entry` is a runtime no-op). -/
theorem malformed_part_passthrough :
    resolve_entries none [("p", [[PyVal.int 1, PyVal.int 2, PyVal.int 3, PyVal.int 4]])]
      = Except.ok [("p", [[PyVal.int 1, PyVal.int 2, PyVal.int 3, PyVal.int 4]])] ∧
    ([PyVal.int 1, PyVal.int 2, PyVal.int 3, PyVal.int 4] : IndexPart).length ≠ 2 ∧
    ([PyVal.int 1, PyVal.int 2, PyVal.int 3, PyVal.int 4] : IndexPart).length ≠ 3 :=
  ⟨rfl, by decide, by decide⟩

/-- C2 as amended: a Part that is neither 2-field nor 3-field is left
unchanged by normalization; when the key is not None, resolution of an
index containing such a Part fails (the unpack in
`UnRPA.deobfuscate_entry` raises); when the key is None, the index
resolves successfully and such a Part passes through unchanged. -/
theorem malformed_part_resolution :
    (∀ (k : Nat) (index : Index),
      (∃ pe ∈ index, ∃ part ∈ pe.2, part.length ≠ 2 ∧ part.length ≠ 3) →
      ∃ e, resolve_entries (some k) index = Except.error e) ∧
    (∀ index : Index, resolve_entries none index = Except.ok (normalise_index index)) ∧
    (∀ part : IndexPart, part.length ≠ 2 → normalise_part part = part) := by
  refine ⟨?_, fun _ => rfl, fun part h => normalise_part_other h⟩
  rintro k index ⟨pe, hpe, part, hpart, h2, h3⟩
  show ∃ e, deobfuscate_index k index = Except.error e
  apply map_except_error _ hpe
  have hmem : part ∈ normalise_entry pe.2 := by
    have hm := List.mem_map_of_mem normalise_part hpart
    rwa [normalise_part_other h2] at hm
  obtain ⟨e, hE⟩ :=
    map_except_error (deobfuscate_part k) hmem
      ⟨PyErr.valueError, deobfuscate_part_wrong_width h3⟩
  exact ⟨e, by simp [deobfuscate_entry, hE, map_error_eq]⟩

/-- C2 witness: a concrete index with a 4-field Part fails to resolve
under key 5, and resolves to its normalization under no key. -/
theorem malformed_part_resolution_witness :
    (∃ e, resolve_entries (some 5)
        [("p", [[PyVal.int 1, PyVal.int 2, PyVal.int 7, PyVal.int 9]])]
      = Except.error e) ∧
    resolve_entries none [("q", [[PyVal.int 3, PyVal.int 4]])]
      = Except.ok (normalise_index [("q", [[PyVal.int 3, PyVal.int 4]])]) :=
  ⟨malformed_part_resolution.1 5 _
      ⟨("p", [[PyVal.int 1, PyVal.int 2, PyVal.int 7, PyVal.int 9]]), by decide,
       [PyVal.int 1, PyVal.int 2, PyVal.int 7, PyVal.int 9], by decide,
       by decide, by decide⟩,
   malformed_part_resolution.2.1 _⟩

/-- C3: version detection over the registered set returns
`AmbiguousArchiveError` carrying the conflicting candidates when the
matching set has more than one element, `UnknownArchiveError` carrying
the header bytes when it is empty, and the instantiated version when
exactly one matches. -/
theorem detect_version_cases :
    ∀ (versions : List Version) (ext : String) (header : List Nat),
      (1 < (versions.filter (fun w => w.detect ext header)).length →
        detect_version versions ext header
          = Except.error (DetectErr.ambiguousArchive
              (versions.filter (fun w => w.detect ext header)))) ∧
      ((versions.filter (fun w => w.detect ext header)) = [] →
        detect_version versions ext header
          = Except.error (DetectErr.unknownArchive header)) ∧
      (∀ v, (versions.filter (fun w => w.detect ext header)) = [v] →
        detect_version versions ext header = Except.ok v) := by
  intro versions ext header
  refine ⟨fun h => ?_, fun h => ?_, fun v h => ?_⟩
  · simp only [detect_version]
    rw [if_pos h]
  · simp [detect_version, h]
  · simp [detect_version, h]

/-- C3 witness: with the two disjoint fixtures registered, an RPA-3.0
header line selects the RPA-3.0 fixture, and an unrecognized header is
rejected as unknown and carries the header bytes. -/
theorem detect_version_cases_witness :
    detect_version [rpa3_fixture, zix_fixture] ".rpa"
        [0x52, 0x50, 0x41, 0x2D, 0x33, 0x2E, 0x30, 0x20, 0x0A]
      = Except.ok rpa3_fixture ∧
    detect_version [rpa3_fixture, zix_fixture] ".rpa" [0x47, 0x41, 0x0A]
      = Except.error (DetectErr.unknownArchive [0x47, 0x41, 0x0A]) :=
  ⟨(detect_version_cases [rpa3_fixture, zix_fixture] ".rpa"
      [0x52, 0x50, 0x41, 0x2D, 0x33, 0x2E, 0x30, 0x20, 0x0A]).2.2 rpa3_fixture rfl,
   (detect_version_cases [rpa3_fixture, zix_fixture] ".rpa" [0x47, 0x41, 0x0A]).2.1 rfl⟩

/-- C4: normalization maps each 2-field Part (offset, length) to the
3-field Part (offset, length, empty byte string), is the identity on
3-field Parts, and on an entry of 2- and 3-field Parts leaves every
Part with exactly 3 fields. -/
theorem normalise_entry_canonical :
    (∀ a b : PyVal, normalise_part [a, b] = [a, b, PyVal.bytes []]) ∧
    (∀ part : IndexPart, part.length = 3 → normalise_part part = part) ∧
    (∀ entry : IndexEntry, (∀ p ∈ entry, p.length = 2 ∨ p.length = 3) →
      ∀ q ∈ normalise_entry entry, q.length = 3) := by
  refine ⟨fun a b => rfl, fun part h => normalise_part_other (by simp [h]), ?_⟩
  intro entry h q hq
  obtain ⟨p, hp, rfl⟩ := List.mem_map.mp hq
  rcases h p hp with h2 | h3
  · rw [normalise_part_two h2]
    simp [h2]
  · rw [normalise_part_other (by simp [h3])]
    exact h3

/-- C4 witness: a concrete 2-field Part gains the empty third field, a
concrete 3-field Part is unchanged, and the member of a normalized
concrete entry has 3 fields. -/
theorem normalise_entry_canonical_witness :
    normalise_part [PyVal.int 3, PyVal.int 4]
      = [PyVal.int 3, PyVal.int 4, PyVal.bytes []] ∧
    normalise_part [PyVal.int 3, PyVal.int 4, PyVal.bytes [1]]
      = [PyVal.int 3, PyVal.int 4, PyVal.bytes [1]] ∧
    ([PyVal.int 3, PyVal.int 4, PyVal.bytes []] : IndexPart).length = 3 :=
  ⟨normalise_entry_canonical.1 (PyVal.int 3) (PyVal.int 4),
   normalise_entry_canonical.2.1 [PyVal.int 3, PyVal.int 4, PyVal.bytes [1]] (by decide),
   normalise_entry_canonical.2.2 [[PyVal.int 3, PyVal.int 4]] (by decide)
     [PyVal.int 3, PyVal.int 4, PyVal.bytes []] (by decide)⟩

/-- C5: with a non-None key, deobfuscation maps every normalized Part
(offset, length, third) to (offset XOR key, length XOR key, third) — the
third (prefix) field is carried over untouched — both per part and
across a whole index; with key None the normalized entries pass through
unchanged. -/
theorem deobfuscate_xor_offset_length :
    (∀ (k o l : Nat) (s : PyVal),
      deobfuscate_part k [PyVal.int o, PyVal.int l, s]
        = Except.ok [PyVal.int (o ^^^ k), PyVal.int (l ^^^ k), s]) ∧
    (∀ (k : Nat) (entry : IndexEntry),
      (∀ p ∈ normalise_entry entry, complex_shape p) →
      deobfuscate_entry k entry
        = Except.ok ((normalise_entry entry).map (claim_deobfuscate_part k))) ∧
    (∀ (k : Nat) (index : Index),
      (∀ pe ∈ index, ∀ p ∈ normalise_entry pe.2, complex_shape p) →
      resolve_entries (some k) index
        = Except.ok (index.map (fun pe =>
            (pe.1, (normalise_entry pe.2).map (claim_deobfuscate_part k))))) ∧
    (∀ index : Index, resolve_entries none index = Except.ok (normalise_index index)) :=
  ⟨fun _ _ _ _ => rfl,
   fun _ _ h => map_except_deobfuscate h,
   fun _ _ h => deobfuscate_index_ok h,
   fun _ => rfl⟩

/-- C5 witness: deobfuscating a concrete entry of one simple and one
complex Part under the RPA-9.1 key XORs both numeric fields and keeps
the byte field. -/
theorem deobfuscate_xor_offset_length_witness :
    deobfuscate_part 3 [PyVal.int 6, PyVal.int 10, PyVal.bytes [1, 2]]
      = Except.ok [PyVal.int 5, PyVal.int 9, PyVal.bytes [1, 2]] ∧
    deobfuscate_entry 1 [[PyVal.int 2, PyVal.int 4]]
      = Except.ok ((normalise_entry [[PyVal.int 2, PyVal.int 4]]).map
          (claim_deobfuscate_part 1)) :=
  ⟨deobfuscate_xor_offset_length.1 3 6 10 (PyVal.bytes [1, 2]),
   deobfuscate_xor_offset_length.2.1 1 [[PyVal.int 2, PyVal.int 4]]
     (fun p hp => by
        have hp2 : p ∈ [[PyVal.int 2, PyVal.int 4, PyVal.bytes []]] := hp
        rw [List.mem_singleton] at hp2
        exact ⟨2, 4, PyVal.bytes [], hp2⟩)⟩

/-- C6: deobfuscating an entry of normalized complex Parts with a key k
and XOR-ing the resulting offset and length against k again recovers the
original normalized entry: XOR with k is self-inverse. -/
theorem deobfuscate_self_inverse :
    ∀ (k : Nat) (entry : IndexEntry),
      (∀ p ∈ normalise_entry entry, complex_shape p) →
      ∃ e2, deobfuscate_entry k entry = Except.ok e2 ∧
        e2.map (claim_deobfuscate_part k) = normalise_entry entry := by
  intro k entry h
  refine ⟨(normalise_entry entry).map (claim_deobfuscate_part k),
    map_except_deobfuscate h, ?_⟩
  rw [List.map_map]
  have hid : ∀ p ∈ normalise_entry entry,
      (claim_deobfuscate_part k ∘ claim_deobfuscate_part k) p = id p := by
    intro p hp
    obtain ⟨o, l, s, rfl⟩ := h p hp
    simp [claim_deobfuscate_part, Nat.xor_cancel_right]
  rw [List.map_congr_left hid, List.map_id]

/-- C6 witness: the entry [(6, 12, b"ab")] deobfuscated under key 9 and
re-XORed against 9 recovers its normalization. -/
theorem deobfuscate_self_inverse_witness :
    ∃ e2, deobfuscate_entry 9 [[PyVal.int 6, PyVal.int 12, PyVal.bytes [97, 98]]]
        = Except.ok e2 ∧
      e2.map (claim_deobfuscate_part 9)
        = normalise_entry [[PyVal.int 6, PyVal.int 12, PyVal.bytes [97, 98]]] :=
  deobfuscate_self_inverse 9 [[PyVal.int 6, PyVal.int 12, PyVal.bytes [97, 98]]]
    (fun p hp => by
      have hp2 : p ∈ [[PyVal.int 6, PyVal.int 12, PyVal.bytes [97, 98]]] := hp
      rw [List.mem_singleton] at hp2
      exact ⟨6, 12, PyVal.bytes [97, 98], hp2⟩)

/-- C7: with continue_on_error false, the first failing entry aborts the
run as ErrorExtractingFile carrying the triggering path and the
underlying cause; with continue_on_error true, every entry of the index
is processed, the successes are all written and the failures are all
recorded. -/
theorem extract_files_failure_policy :
    (∀ (process : String → IndexEntry → Except PyErr (List Nat))
       (pre : Index) (path : String) (entry : IndexEntry) (c : PyErr) (rest : Index),
      (∀ pe ∈ pre, (process pe.1 pe.2).isOk = true) →
      process path entry = Except.error c →
      extract_files false process (pre ++ (path, entry) :: rest)
        = Except.error (RunErr.errorExtractingFile path c)) ∧
    (∀ (process : String → IndexEntry → Except PyErr (List Nat)) (index : Index),
      extract_files true process index
        = Except.ok (successful_entries process index, failed_entries process index)) :=
  ⟨fun process pre path entry c rest h hc =>
      extract_files_abort process pre path entry c rest h hc,
   fun process index => extract_files_logged process index⟩

/-- C7 witness: on a three-entry index whose middle entry fails, the
strict run aborts at the middle entry with its cause, and the permissive
run reports the two successes and the one failure. -/
theorem extract_files_failure_policy_witness :
    extract_files false broken_process [("a", []), ("bad", []), ("z", [])]
      = Except.error (RunErr.errorExtractingFile "bad" PyErr.valueError) ∧
    extract_files true broken_process [("a", []), ("bad", []), ("z", [])]
      = Except.ok (successful_entries broken_process [("a", []), ("bad", []), ("z", [])],
          failed_entries broken_process [("a", []), ("bad", []), ("z", [])]) :=
  ⟨extract_files_failure_policy.1 broken_process [("a", [])] "bad" [] PyErr.valueError
      [("z", [])] (by decide) rfl,
   extract_files_failure_policy.2 broken_process [("a", []), ("bad", []), ("z", [])]⟩

/-- C8: listing outputs exactly the keys of the Index, sorted: the
output is a permutation of the key list, it is sorted lexicographically,
and it is the same for any two indexes with the same keys up to
insertion order — the entries (offsets, lengths, payload views) never
enter the computation. -/
theorem list_files_sorted_keys :
    ∀ index : Index,
      (list_files index).Perm (index.map Prod.fst) ∧
      List.Sorted (fun a b : String => a ≤ b) (list_files index) ∧
      ∀ index2 : Index, (index.map Prod.fst).Perm (index2.map Prod.fst) →
        list_files index = list_files index2 := by
  intro index
  refine ⟨List.mergeSort_perm _ _, list_files_sorted index, ?_⟩
  intro index2 hperm
  apply List.eq_of_perm_of_sorted (r := fun a b : String => a ≤ b)
  · exact ((List.mergeSort_perm _ _).trans hperm).trans (List.mergeSort_perm _ _).symm
  · exact list_files_sorted index
  · exact list_files_sorted index2

/-- C8 witness: the spec example — an archive with paths c.txt and
a/b.txt lists the same output whichever insertion order the index used,
and that output is a permutation of the keys. -/
theorem list_files_sorted_keys_witness :
    (list_files [("c.txt", []), ("a/b.txt", [])]).Perm
      (([("c.txt", []), ("a/b.txt", [])] : Index).map Prod.fst) ∧
    list_files [("c.txt", []), ("a/b.txt", [])]
      = list_files [("a/b.txt", [[PyVal.int 1, PyVal.int 2]]), ("c.txt", [])] :=
  ⟨(list_files_sorted_keys [("c.txt", []), ("a/b.txt", [])]).1,
   (list_files_sorted_keys [("c.txt", []), ("a/b.txt", [])]).2.2
     [("a/b.txt", [[PyVal.int 1, PyVal.int 2]]), ("c.txt", [])]
     (List.Perm.swap "a/b.txt" "c.txt" [])⟩

/-- C9: extraction of an entry uses exactly its first Part: the view is
built from the first Part's three fields alone, and the result does not
depend on whatever later Parts the entry holds. -/
theorem extract_file_first_part_only :
    (∀ (part : IndexPart) (rest rest2 : IndexEntry),
      extract_file (part :: rest) = extract_file (part :: rest2)) ∧
    (∀ (o l s : PyVal) (rest : IndexEntry),
      extract_file ([o, l, s] :: rest) = Except.ok (ArchiveView.mk o l s)) :=
  ⟨fun _ _ _ => rfl, fun _ _ _ _ => rfl⟩

/-- C10: selecting the first Part of an empty entry fails with
StopIteration instead of producing a view, so an empty entry never
reaches the postprocess path. -/
theorem extract_file_empty_entry :
    extract_file [] = Except.error PyErr.stopIteration ∧
    (extract_file ([] : IndexEntry)).isOk = false :=
  ⟨rfl, rfl⟩

end UnRPA
